import Mathlib

/-!
Verification of the dev-mode app event watcher
(`packages/app/src/cli/services/dev/app-events/app-event-watcher.ts`).

The development is a shallow embedding of the orchestrator:

* The pure per-artifact build dispatch (`buildExtensions` /
  `buildExtension`, source lines 202-237) is embedded as a pure function
  over a backend oracle `BuildEnv`: `contexts` models the esbuild
  incremental-session registry (`this.esbuildManager.contexts`, a map from
  extension handle to a context whose `rebuild()` yields a list of
  structured error texts), and `buildForBundle` models the non-incremental
  backend (`ext.buildForBundle`), which either succeeds or throws an error
  whose message is the `String`.

* The stateful lifecycle (`start`, `onStart`, `onEvent`, the batch handler
  registered with `startFileWatcher`, source lines 110-182) is embedded as
  explicit state passing over `WatcherState`, with every externally visible
  effect (directory cleanup, dispatcher invocation, subscription, event
  emission, listener invocation) recorded in an append-only `log` of
  `Action`s.  Listeners are identified by numeric ids; Node's
  `EventEmitter.emit` invokes every listener currently registered for the
  event, in registration order, which is what `emitReadyEvent` does.

* `start` is additionally given a small-step presentation (`startStep`)
  whose atomic steps are the pieces between `await` points of the source,
  so that interleavings of concurrent `start()` calls on the single JS
  event loop can be quantified over.  The `started` guard check and the
  `this.started = true` assignment are one atomic step because no `await`
  separates them in the source (lines 111-112).

* The build output store (`deleteExtensionsBuildOutput`, lines 189-195) is
  embedded over a `Finset String` of existing output subdirectories;
  `rmdirFs` models `rmdir(path, {force})`, which fails on a missing
  directory only when `force` is false.
-/

namespace AppWatcher

/-- The type of the extension event (source lines 58-62): the enum members
are `Updated = 'changed'`, `Deleted = 'deleted'`, `Created = 'created'`. -/
inductive EventType where
  | updated
  | deleted
  | created
deriving DecidableEq, Repr

/-- An extension instance, reduced to the fields the orchestrator reads:
its stable `handle`, the folder id used by `getOutputFolderId()`, and the
`isESBuildExtension` eligibility flag. -/
structure ExtensionInstance where
  handle : String
  outputFolderId : String
  isESBuildExtension : Bool
deriving DecidableEq, Repr

/-- The linked app, reduced to the authoritative artifact set
(`app.realExtensions`) that the orchestrator reads. -/
structure AppLinkedInterface where
  realExtensions : List ExtensionInstance
deriving DecidableEq, Repr

/-- A pair of change kind and affected extension (source lines 64-67). -/
structure ExtensionEvent where
  type : EventType
  extension : ExtensionInstance
deriving DecidableEq, Repr

/-- A reconciled batch (source lines 75-80): new app snapshot, affected
extension events, triggering path and start timestamp. -/
structure AppEvent where
  app : AppLinkedInterface
  extensionEvents : List ExtensionEvent
  path : String
  startTime : Nat × Nat
deriving DecidableEq, Repr

/-- The per-artifact build result (source line 82):
`{status: 'ok'; handle}` or `{status: 'error'; error; handle}`. -/
inductive ExtensionBuildResult where
  | ok (handle : String)
  | error (error : String) (handle : String)
deriving DecidableEq, Repr

/-- The handle carried by a build result. -/
def ExtensionBuildResult.handle : ExtensionBuildResult → String
  | .ok h => h
  | .error _ h => h

/-- Backend oracle for one `buildExtensions` call.  `contexts h` is
`some errs` when the esbuild registry holds a live incremental session for
handle `h` whose `rebuild()` reports the structured error texts `errs`
(`result.errors.map((err) => err.text)`), and `none` when
`this.esbuildManager.contexts[ext.handle]` is absent.  `buildForBundle h`
is the non-incremental backend for handle `h`: `.error m` models a thrown
exception with message `m`. -/
structure BuildEnv where
  contexts : String → Option (List String)
  buildForBundle : String → Except String Unit

/-- One iteration of the `extensions.map` callback in `buildExtensions`
(source lines 203-217): if a live incremental session exists, its rebuild
is invoked and a nonempty error list is thrown as a single `Error` whose
message joins the texts with a newline; otherwise `buildExtension` runs
the non-incremental backend.  Every throw is caught and converted to
`{status: 'error', error: error.message, handle}`. -/
def buildOneExtension (env : BuildEnv) (ext : ExtensionInstance) :
    ExtensionBuildResult :=
  match env.contexts ext.handle with
  | some errs =>
    if errs.length ≠ 0 then
      .error (String.intercalate "\n" errs) ext.handle
    else
      .ok ext.handle
  | none =>
    match env.buildForBundle ext.handle with
    | .ok _ => .ok ext.handle
    | .error m => .error m ext.handle

/-- `buildExtensions` (source lines 202-221): one result per input
extension, collected with `Promise.all`.  The function is total: a
per-artifact exception is converted to an `.error` result inside the
callback, so the overall call never rejects. -/
def buildExtensions (env : BuildEnv) (exts : List ExtensionInstance) :
    List ExtensionBuildResult :=
  exts.map (buildOneExtension env)

/-- `rmdir(path, {force})` over a file-system modelled as the set of
existing directories: removing a missing directory is an error exactly
when `force` is false. -/
def rmdirFs (force : Bool) (path : String) (store : Finset String) :
    Except String (Finset String) :=
  if path ∈ store then .ok (store.erase path)
  else if force then .ok store
  else .error ("ENOENT: " ++ path)

/-- `deleteExtensionsBuildOutput` (source lines 189-195): force-remove the
output subdirectory `getOutputFolderId()` of each given extension.  The
concurrent `Promise.all` join is embedded as a monadic fold; each removal
is independent of the others and always succeeds, so the serialization is
effect-equivalent. -/
def deleteExtensionsBuildOutput (exts : List ExtensionInstance)
    (store : Finset String) : Except String (Finset String) :=
  exts.foldlM (fun st ext => rmdirFs true ext.outputFolderId st) store

/-- Helper: the pure closed form of the force-removal fold. -/
def purgeFold (exts : List ExtensionInstance) (store : Finset String) :
    Finset String :=
  exts.foldl (fun st ext => st.erase ext.outputFolderId) store

/-- Externally visible effects of the orchestrator, recorded in an
append-only log.  `rmOutputRoot`/`mkOutputRoot` are the cleanup/creation
of the build output root (source lines 114-115), `createContexts` the
esbuild context initialisation with the eligible handles (line 118),
`buildAll` one invocation of `buildExtensions` with the handles of the
artifacts passed to it (lines 121 and 140), `purge` one invocation of
`deleteExtensionsBuildOutput` with the output folder ids passed to it
(line 146), `subscribe` the `startFileWatcher` subscription (line 124),
`emitReady` one call to `this.emit('ready')`, `invokeReadyListener` the
invocation of one registered `ready` listener by such a call,
`updateContexts` the `esbuildManager.updateContexts` call (line 133),
`debugNoExtensions` the debug log of the zero-event short-circuit
(line 130), and `invokeEventListener` the invocation of one registered
`all` listener by `this.emit('all', appEvent)` (line 147). -/
inductive Action where
  | rmOutputRoot
  | mkOutputRoot
  | createContexts (handles : List String)
  | buildAll (handles : List String)
  | purge (folderIds : List String)
  | subscribe
  | emitReady
  | invokeReadyListener (id : Nat)
  | updateContexts
  | debugNoExtensions
  | invokeEventListener (id : Nat) (ev : AppEvent)
deriving DecidableEq, Repr

/-- The mutable fields of `AppEventWatcher` (source lines 88-94) plus the
`EventEmitter` listener registries inherited from `EventEmitter`
(listeners are identified by numeric ids, in registration order) and the
effect log. -/
structure WatcherState where
  app : AppLinkedInterface
  started : Bool
  ready : Bool
  readyListeners : List Nat
  eventListeners : List Nat
  log : List Action
deriving DecidableEq, Repr

/-- `this.emit('ready')`: Node's `EventEmitter.emit` synchronously invokes
every listener currently registered for the event, in registration
order. -/
def emitReadyEvent (s : WatcherState) : WatcherState :=
  {s with log :=
    s.log ++ Action.emitReady :: s.readyListeners.map Action.invokeReadyListener}

/-- `onStart` (source lines 177-182): `addListener('ready', listener)`,
then, if the watcher is already ready, `this.emit('ready')` — which
re-invokes every registered `ready` listener, not only the new one. -/
def onStart (id : Nat) (s : WatcherState) : WatcherState :=
  let s1 := {s with readyListeners := s.readyListeners ++ [id]}
  if s1.ready then emitReadyEvent s1 else s1

/-- `onEvent` (source lines 164-168): `addListener('all', listener)`. -/
def onEvent (id : Nat) (s : WatcherState) : WatcherState :=
  {s with eventListeners := s.eventListeners ++ [id]}

/-- The eligible handles passed to `createContexts`:
`this.app.realExtensions.filter((ext) => ext.isESBuildExtension)`
(source line 118). -/
def esbuildHandles (s : WatcherState) : List String :=
  (s.app.realExtensions.filter (·.isESBuildExtension)).map (·.handle)

/-- `start` (source lines 110-156) as one atomic call: return immediately
when already started, otherwise set `started`, clean and recreate the
output root, create the esbuild contexts, run the initial build of all
extensions, subscribe to the file watcher, set `ready` and emit
`'ready'`. -/
def start (s : WatcherState) : WatcherState :=
  if s.started then s
  else
    emitReadyEvent
      { s with
        started := true
        ready := true
        log := s.log ++ [Action.rmOutputRoot, Action.mkOutputRoot,
          Action.createContexts (esbuildHandles s),
          Action.buildAll (s.app.realExtensions.map (·.handle)),
          Action.subscribe] }

/-- The batch handler registered with `startFileWatcher` (source lines
124-148), applied to the `appEvent` produced by `handleWatcherEvents`:
`none` models a null reconciliation result (`if (!appEvent) return`).
Otherwise the app snapshot is replaced first, then the zero-event
short-circuit only logs, and in the general case the esbuild contexts are
updated, the non-deleted extensions are built, the deleted extensions'
output folders are purged, and `this.emit('all', appEvent)` invokes every
registered `all` listener with the full batch. -/
def handleBatch (s : WatcherState) (appEvent : Option AppEvent) :
    WatcherState :=
  match appEvent with
  | none => s
  | some ev =>
    let s1 := {s with app := ev.app}
    if ev.extensionEvents.length = 0 then
      {s1 with log := s1.log ++ [Action.debugNoExtensions]}
    else
      let createdOrUpdated :=
        (ev.extensionEvents.filter
          (fun e => e.type ≠ EventType.deleted)).map (·.extension)
      let deleted :=
        (ev.extensionEvents.filter
          (fun e => e.type = EventType.deleted)).map (·.extension)
      {s1 with log := s1.log ++
        [Action.updateContexts,
          Action.buildAll (createdOrUpdated.map (·.handle)),
          Action.purge (deleted.map (·.outputFolderId))] ++
        s1.eventListeners.map (fun id => Action.invokeEventListener id ev)}

/-- Does an action invoke the ready listener with the given id? -/
def Action.isReadyCallTo (id : Nat) : Action → Bool
  | .invokeReadyListener j => j = id
  | _ => false

/-- Concrete sample artifacts and states used by the witnesses below. -/
def extA : ExtensionInstance := ⟨"a", "a-out", false⟩

def extB : ExtensionInstance := ⟨"b", "b-out", false⟩

def extC : ExtensionInstance := ⟨"c", "c-out", false⟩

/-- A sample reconciled batch carrying Created(A), Updated(B),
Deleted(C). -/
def mixedEvent : AppEvent :=
  ⟨⟨[extA, extB]⟩,
    [⟨EventType.created, extA⟩, ⟨EventType.updated, extB⟩,
      ⟨EventType.deleted, extC⟩], "p", (0, 0)⟩

/-- A sample reconciled batch with zero artifact events. -/
def emptyEvent : AppEvent := ⟨⟨[extA]⟩, [], "p", (3, 4)⟩

/-- A sample ready watcher with two registered event listeners. -/
def twoListenerWatcher : WatcherState := ⟨⟨[]⟩, true, true, [], [4, 7], []⟩

/-- A sample ready watcher with one registered ready listener. -/
def readyWatcher : WatcherState := ⟨⟨[]⟩, true, true, [5], [], []⟩

/-- One atomic step of a `start()` invocation at program counter `pc`.
The steps are the pieces of the source body (lines 110-156) between
`await` points: pc 0 is the synchronous guard `if (this.started) return`
together with `this.started = true` (no `await` separates them, so on the
single-threaded JS event loop they are one atomic step; a call that finds
the flag set jumps to the terminal skip state 8), pcs 1-5 are the awaited
root cleanup, root creation, context creation, initial build and file
watcher subscription, and pc 6 sets `ready` and emits `'ready'`
(terminal owner state 7). -/
def startStep (s : WatcherState) (pc : Nat) : WatcherState × Nat :=
  if pc = 0 then
    if s.started then (s, 8) else ({ s with started := true }, 1)
  else if pc = 1 then ({ s with log := s.log ++ [Action.rmOutputRoot] }, 2)
  else if pc = 2 then ({ s with log := s.log ++ [Action.mkOutputRoot] }, 3)
  else if pc = 3 then
    ({ s with log := s.log ++ [Action.createContexts (esbuildHandles s)] }, 4)
  else if pc = 4 then
    ({ s with log := s.log ++
        [Action.buildAll (s.app.realExtensions.map (·.handle))] }, 5)
  else if pc = 5 then ({ s with log := s.log ++ [Action.subscribe] }, 6)
  else if pc = 6 then (emitReadyEvent { s with ready := true }, 7)
  else (s, pc)

/-- Run two concurrent `start()` invocations under an arbitrary
interleaving: each schedule entry picks which invocation performs its
next atomic step. -/
def runTwo : WatcherState × Nat × Nat → List Bool → WatcherState × Nat × Nat
  | st, [] => st
  | st, b :: rest =>
    if b then
      runTwo ((startStep st.1 st.2.1).1, (startStep st.1 st.2.1).2, st.2.2) rest
    else
      runTwo ((startStep st.1 st.2.2).1, st.2.1, (startStep st.1 st.2.2).2) rest

/-- A `start()` invocation that owns the startup sequence: it has passed
the guard and has not been skipped. -/
def isOwner (pc : Nat) : Prop := 1 ≤ pc ∧ pc ≤ 7

/-- The log contribution of the owning `start()` invocation once it has
reached `pc`, relative to the state `s0` at the first `start()` call. -/
def ownerLog (s0 : WatcherState) (pc : Nat) : List Action :=
  if pc ≤ 1 then []
  else if pc = 2 then [Action.rmOutputRoot]
  else if pc = 3 then [Action.rmOutputRoot, Action.mkOutputRoot]
  else if pc = 4 then
    [Action.rmOutputRoot, Action.mkOutputRoot,
      Action.createContexts (esbuildHandles s0)]
  else if pc = 5 then
    [Action.rmOutputRoot, Action.mkOutputRoot,
      Action.createContexts (esbuildHandles s0),
      Action.buildAll (s0.app.realExtensions.map (·.handle))]
  else if pc = 6 then
    [Action.rmOutputRoot, Action.mkOutputRoot,
      Action.createContexts (esbuildHandles s0),
      Action.buildAll (s0.app.realExtensions.map (·.handle)),
      Action.subscribe]
  else if pc = 7 then
    [Action.rmOutputRoot, Action.mkOutputRoot,
      Action.createContexts (esbuildHandles s0),
      Action.buildAll (s0.app.realExtensions.map (·.handle)),
      Action.subscribe] ++ Action.emitReady ::
      s0.readyListeners.map Action.invokeReadyListener
  else []

/-- Invariant of two interleaved `start()` invocations, relative to the
initial state `s0`: program counters are in range, at most one invocation
ever owns the startup sequence, a skipped invocation proves an owner
exists, the fields other than the log and the flags are untouched, and
the log is the initial log extended by exactly the owner's
contribution. -/
def StartInv (s0 s : WatcherState) (pc1 pc2 : Nat) : Prop :=
  pc1 ≤ 8 ∧ pc2 ≤ 8 ∧
  s.app = s0.app ∧
  s.readyListeners = s0.readyListeners ∧
  s.eventListeners = s0.eventListeners ∧
  (s.started = true ↔ (isOwner pc1 ∨ isOwner pc2)) ∧
  ¬(isOwner pc1 ∧ isOwner pc2) ∧
  (pc1 = 8 → isOwner pc2) ∧
  (pc2 = 8 → isOwner pc1) ∧
  (isOwner pc1 → s.log = s0.log ++ ownerLog s0 pc1) ∧
  (isOwner pc2 → s.log = s0.log ++ ownerLog s0 pc2) ∧
  (¬isOwner pc1 ∧ ¬isOwner pc2 → s.log = s0.log)

/-- A concrete fresh watcher with one ready listener registered before
start. -/
def preStartWatcher : WatcherState := ⟨⟨[]⟩, false, false, [3], [], []⟩

/-- A concrete interleaving of two `start()` invocations: the second
invocation wins the guard, the first is skipped, the second finishes. -/
def interleavedSched : List Bool :=
  [false, true, false, false, false, false, false, false]

theorem rmdirFs_force_ok (path : String) (store : Finset String) :
    rmdirFs true path store = .ok (store.erase path) := by
  unfold rmdirFs
  by_cases h : path ∈ store
  · simp [h]
  · simp [h, Finset.erase_eq_of_not_mem h]

theorem deleteExtensionsBuildOutput_eq_purgeFold
    (exts : List ExtensionInstance) (store : Finset String) :
    deleteExtensionsBuildOutput exts store = .ok (purgeFold exts store) := by
  induction exts generalizing store with
  | nil => rfl
  | cons e es ih =>
    unfold deleteExtensionsBuildOutput at ih ⊢
    rw [List.foldlM_cons, rmdirFs_force_ok]
    simpa [purgeFold] using ih (store.erase e.outputFolderId)

theorem purgeFold_eq_sdiff (exts : List ExtensionInstance)
    (store : Finset String) :
    purgeFold exts store = store \ (exts.map (·.outputFolderId)).toFinset := by
  induction exts generalizing store with
  | nil => simp [purgeFold]
  | cons e es ih =>
    unfold purgeFold at ih ⊢
    rw [List.foldl_cons, ih]
    ext x
    simp only [Finset.mem_sdiff, Finset.mem_erase, List.mem_toFinset,
      List.map_cons, List.mem_cons]
    tauto

/-- C1: for every backend oracle and every input list of artifacts,
`buildExtensions` returns exactly one `ExtensionBuildResult` per input
artifact (same cardinality, aligned by position and carrying the input
artifact's handle).  The result type is `List ExtensionBuildResult`, not
`Except`: a per-artifact exception is converted to an `.error` entry
inside that artifact's callback, so one artifact's failure never rejects
the whole call nor removes any sibling's result. -/
theorem buildExtensions_one_result_per_artifact (env : BuildEnv)
    (exts : List ExtensionInstance) :
    (buildExtensions env exts).length = exts.length ∧
      (buildExtensions env exts).map ExtensionBuildResult.handle =
        exts.map (·.handle) := by
  constructor
  · simp [buildExtensions]
  · simp only [buildExtensions, List.map_map]
    refine List.map_congr_left fun ext _ => ?_
    cases h : env.contexts ext.handle with
    | some errs =>
      cases errs with
      | nil => simp [buildOneExtension, h, ExtensionBuildResult.handle]
      | cons e es => simp [buildOneExtension, h, ExtensionBuildResult.handle]
    | none =>
      cases hb : env.buildForBundle ext.handle <;>
        simp [buildOneExtension, h, hb, ExtensionBuildResult.handle]

/-- C5: failure isolation with message propagation: if artifact `X` has no
incremental session and its non-incremental build throws an error with
message "boom", while sibling `Y` (no incremental session either) builds
successfully, then the same `buildExtensions` result list contains both
`.error "boom" X.handle` and `.ok Y.handle`. -/
theorem buildExtensions_failure_isolation (env : BuildEnv)
    (exts : List ExtensionInstance) (X Y : ExtensionInstance)
    (hX : X ∈ exts) (hY : Y ∈ exts)
    (hXctx : env.contexts X.handle = none)
    (hXbuild : env.buildForBundle X.handle = .error "boom")
    (hYctx : env.contexts Y.handle = none)
    (hYbuild : env.buildForBundle Y.handle = .ok ()) :
    ExtensionBuildResult.error "boom" X.handle ∈ buildExtensions env exts ∧
      ExtensionBuildResult.ok Y.handle ∈ buildExtensions env exts := by
  constructor
  · have h : buildOneExtension env X = .error "boom" X.handle := by
      unfold buildOneExtension
      rw [hXctx, hXbuild]
    exact h ▸ List.mem_map_of_mem (buildOneExtension env) hX
  · have h : buildOneExtension env Y = .ok Y.handle := by
      unfold buildOneExtension
      rw [hYctx, hYbuild]
    exact h ▸ List.mem_map_of_mem (buildOneExtension env) hY

/-- C5 witness: a concrete two-artifact batch where X throws "boom" and Y
succeeds. -/
theorem buildExtensions_failure_isolation_witness :
    ExtensionBuildResult.error "boom" "x" ∈
        buildExtensions
          ⟨fun _ => none,
            fun h => if h = "x" then .error "boom" else .ok ()⟩
          [⟨"x", "x-out", false⟩, ⟨"y", "y-out", false⟩] ∧
      ExtensionBuildResult.ok "y" ∈
        buildExtensions
          ⟨fun _ => none,
            fun h => if h = "x" then .error "boom" else .ok ()⟩
          [⟨"x", "x-out", false⟩, ⟨"y", "y-out", false⟩] :=
  buildExtensions_failure_isolation _ _ ⟨"x", "x-out", false⟩
    ⟨"y", "y-out", false⟩ (by simp) (by simp) rfl rfl rfl rfl

/-- C6: for an artifact with a live incremental session, the dispatcher
invokes that session's rebuild and never consults the non-incremental
backend (the result is independent of `buildForBundle`); a nonempty list
of structured error texts yields `.error` with the texts joined by a
newline, an empty list yields `.ok`. -/
theorem buildOneExtension_incremental_path
    (ctx : String → Option (List String))
    (f g : String → Except String Unit)
    (ext : ExtensionInstance) (errs : List String)
    (h : ctx ext.handle = some errs) :
    buildOneExtension ⟨ctx, f⟩ ext = buildOneExtension ⟨ctx, g⟩ ext ∧
      buildOneExtension ⟨ctx, f⟩ ext =
        (if errs = [] then ExtensionBuildResult.ok ext.handle
         else ExtensionBuildResult.error (String.intercalate "\n" errs)
           ext.handle) := by
  unfold buildOneExtension
  simp only [h]
  cases errs with
  | nil => simp
  | cons e es => simp

/-- C6 witness: a concrete artifact with a live session reporting two
error texts. -/
theorem buildOneExtension_incremental_path_witness :
    buildOneExtension ⟨fun _ => some ["e1", "e2"], fun _ => .ok ()⟩
        ⟨"x", "x-out", true⟩ =
      buildOneExtension ⟨fun _ => some ["e1", "e2"], fun _ => .error "ignored"⟩
        ⟨"x", "x-out", true⟩ ∧
      buildOneExtension ⟨fun _ => some ["e1", "e2"], fun _ => .ok ()⟩
          ⟨"x", "x-out", true⟩ =
        (if ["e1", "e2"] = ([] : List String) then
           ExtensionBuildResult.ok "x"
         else ExtensionBuildResult.error
           (String.intercalate "\n" ["e1", "e2"]) "x") :=
  buildOneExtension_incremental_path _ (fun _ => .ok ())
    (fun _ => .error "ignored") ⟨"x", "x-out", true⟩ ["e1", "e2"] rfl

/-- C3: for a batch carrying exactly `Created(A)`, `Updated(B)`,
`Deleted(C)`, the handler builds exactly A and B, purges exactly C's
output folder, and afterwards invokes each registered `onEvent` listener
exactly once with the single notification carrying all three events: the
appended log is precisely one context update, one `buildAll` of
`[A, B]`, one purge of `[C]`, and then one invocation per registered
listener, in that order. -/
theorem handleBatch_mixed_batch (s : WatcherState)
    (A B C : ExtensionInstance) (ev : AppEvent)
    (h : ev.extensionEvents =
      [⟨EventType.created, A⟩, ⟨EventType.updated, B⟩,
        ⟨EventType.deleted, C⟩]) :
    handleBatch s (some ev) =
      { s with
        app := ev.app
        log := s.log ++
          [Action.updateContexts,
            Action.buildAll [A.handle, B.handle],
            Action.purge [C.outputFolderId]] ++
          s.eventListeners.map
            (fun id => Action.invokeEventListener id ev) } := by
  simp [handleBatch, h]

/-- C3 witness: a concrete mixed batch against a watcher with two
registered event listeners. -/
theorem handleBatch_mixed_batch_witness :
    handleBatch twoListenerWatcher (some mixedEvent) =
      { twoListenerWatcher with
        app := mixedEvent.app
        log := twoListenerWatcher.log ++
          [Action.updateContexts,
            Action.buildAll [extA.handle, extB.handle],
            Action.purge [extC.outputFolderId]] ++
          twoListenerWatcher.eventListeners.map
            (fun id => Action.invokeEventListener id mixedEvent) } :=
  handleBatch_mixed_batch twoListenerWatcher extA extB extC mixedEvent rfl

/-- C4: a non-null batch with zero extension events only replaces the app
snapshot and logs the debug message: no context update, no build, no
purge, no listener invocation. -/
theorem handleBatch_empty_batch (s : WatcherState) (ev : AppEvent)
    (h : ev.extensionEvents = []) :
    handleBatch s (some ev) =
      {s with app := ev.app, log := s.log ++ [Action.debugNoExtensions]} := by
  simp [handleBatch, h]

/-- C4 witness: a concrete zero-event batch. -/
theorem handleBatch_empty_batch_witness :
    handleBatch twoListenerWatcher (some emptyEvent) =
      { twoListenerWatcher with
        app := emptyEvent.app
        log := twoListenerWatcher.log ++ [Action.debugNoExtensions] } :=
  handleBatch_empty_batch twoListenerWatcher emptyEvent rfl

/-- C10: for every non-null batch, the held app snapshot is replaced with
the batch's snapshot before the zero-event check, so even a zero-event
batch updates the current snapshot. -/
theorem handleBatch_updates_app (s : WatcherState) (ev : AppEvent) :
    (handleBatch s (some ev)).app = ev.app := by
  unfold handleBatch
  by_cases h : ev.extensionEvents.length = 0 <;> simp [h]

/-- Helper: the log produced by registering a ready listener on an
already-ready watcher. -/
theorem onStart_ready_log (s : WatcherState) (id : Nat)
    (h : s.ready = true) :
    (onStart id s).log =
      s.log ++ Action.emitReady ::
        (s.readyListeners ++ [id]).map Action.invokeReadyListener := by
  simp [onStart, h, emitReadyEvent]

/-- C7: an `onStart` listener registered after the watcher has reached
readiness is still invoked: the registration itself triggers an emit that
reaches the new listener. -/
theorem onStart_after_ready_invoked (s : WatcherState) (id : Nat)
    (h : s.ready = true) :
    Action.invokeReadyListener id ∈ (onStart id s).log := by
  rw [onStart_ready_log s id h]
  refine List.mem_append_right _ (List.mem_cons_of_mem _ ?_)
  exact List.mem_map_of_mem _ (List.mem_append_right _ (List.mem_singleton.2 rfl))

/-- C7 witness: a listener registered on a concrete already-ready
watcher. -/
theorem onStart_after_ready_invoked_witness :
    Action.invokeReadyListener 9 ∈ (onStart 9 readyWatcher).log :=
  onStart_after_ready_invoked readyWatcher 9 rfl

/-- C9: registering a new `onStart` listener after readiness re-emits the
ready event to every listener currently registered: each previously
registered listener `j` is invoked at least once more by the
registration. -/
theorem onStart_after_ready_reemits_to_all (s : WatcherState) (i j : Nat)
    (hr : s.ready = true) (hj : j ∈ s.readyListeners) :
    s.log.countP (Action.isReadyCallTo j) + 1 ≤
      (onStart i s).log.countP (Action.isReadyCallTo j) := by
  rw [onStart_ready_log s i hr, List.countP_append]
  have h1 : 0 < (Action.emitReady ::
      (s.readyListeners ++ [i]).map Action.invokeReadyListener).countP
      (Action.isReadyCallTo j) := by
    rw [List.countP_pos_iff]
    refine ⟨Action.invokeReadyListener j, ?_, by simp [Action.isReadyCallTo]⟩
    exact List.mem_cons_of_mem _
      (List.mem_map_of_mem _ (List.mem_append_left _ hj))
  omega

/-- C9 witness: with listener 5 already registered and the watcher ready,
registering listener 9 invokes listener 5 once more. -/
theorem onStart_after_ready_reemits_to_all_witness :
    readyWatcher.log.countP (Action.isReadyCallTo 5) + 1 ≤
      (onStart 9 readyWatcher).log.countP (Action.isReadyCallTo 5) :=
  onStart_after_ready_reemits_to_all readyWatcher 9 5 rfl (by decide)

/-- C2 counterexample: the ready notification is not delivered to each
registered `onStart` listener exactly once over the lifetime of the
session.  Concretely: register listener 1, call `start()` once (listener
1 is invoked), then register listener 2 after readiness — the
registration re-emits `'ready'`, so listener 1 has been invoked twice. -/
theorem ready_not_exactly_once_counterexample :
    (onStart 2 (start (onStart 1
        ⟨⟨[]⟩, false, false, [], [], []⟩))).log.countP
        (Action.isReadyCallTo 1) = 2 ∧
      ¬ (onStart 2 (start (onStart 1
        ⟨⟨[]⟩, false, false, [], [], []⟩))).log.countP
        (Action.isReadyCallTo 1) = 1 := by
  constructor <;> decide

/-- C8: purging build output is idempotent: for every list of extensions
and every store state, `deleteExtensionsBuildOutput` succeeds (even when
some or all of the output subdirectories are absent, since `rmdir` is
called with `force: true`), and purging the same extensions again from the
resulting store succeeds and leaves the store unchanged. -/
theorem deleteExtensionsBuildOutput_idempotent
    (exts : List ExtensionInstance) (store : Finset String) :
    ∃ st, deleteExtensionsBuildOutput exts store = .ok st ∧
      deleteExtensionsBuildOutput exts st = .ok st := by
  refine ⟨purgeFold exts store, deleteExtensionsBuildOutput_eq_purgeFold .., ?_⟩
  rw [deleteExtensionsBuildOutput_eq_purgeFold]
  have h : purgeFold exts (purgeFold exts store) = purgeFold exts store := by
    rw [purgeFold_eq_sdiff, purgeFold_eq_sdiff]
    ext x
    simp only [Finset.mem_sdiff]
    tauto
  rw [h]

theorem startInv_swap (s0 s : WatcherState) (pc1 pc2 : Nat)
    (h : StartInv s0 s pc1 pc2) : StartInv s0 s pc2 pc1 := by
  obtain ⟨hb1, hb2, happ, hrl, hel, hst, hni, h8a, h8b, hl1, hl2, hl0⟩ := h
  exact ⟨hb2, hb1, happ, hrl, hel, hst.trans or_comm,
    fun h => hni ⟨h.2, h.1⟩, h8b, h8a, hl2, hl1, fun h => hl0 ⟨h.2, h.1⟩⟩

theorem startStep_inv (s0 s : WatcherState) (pc1 pc2 : Nat)
    (h : StartInv s0 s pc1 pc2) :
    StartInv s0 (startStep s pc1).1 (startStep s pc1).2 pc2 := by
  obtain ⟨hb1, hb2, happ, hrl, hel, hst, hni, h8a, h8b, hl1, hl2, hl0⟩ := h
  interval_cases pc1
  · -- pc = 0: the guard
    rw [show startStep s 0 =
      (if s.started then (s, 8) else ({ s with started := true }, 1)) from rfl]
    by_cases hs : s.started = true
    · have hop2 : isOwner pc2 := by
        rcases hst.mp hs with h | h
        · exact absurd h (by simp [isOwner])
        · exact h
      rw [if_pos hs]
      refine ⟨by omega, hb2, happ, hrl, hel, ?_, ?_, fun _ => hop2, ?_, ?_,
        hl2, ?_⟩
      · exact ⟨fun _ => Or.inr hop2, fun _ => hs⟩
      · rintro ⟨h8, _⟩; exact absurd h8 (by simp [isOwner])
      · intro hpc2; exact absurd (h8b hpc2) (by simp [isOwner])
      · intro h8; exact absurd h8 (by simp [isOwner])
      · rintro ⟨_, hno2⟩; exact absurd hop2 hno2
    · have hno : ¬(isOwner 0 ∨ isOwner pc2) := fun hcon => hs (hst.mpr hcon)
      have hno2 : ¬isOwner pc2 := fun h2 => hno (Or.inr h2)
      have hlog0 : s.log = s0.log := hl0 ⟨by simp [isOwner], hno2⟩
      rw [if_neg hs]
      refine ⟨by omega, hb2, happ, hrl, hel, ?_, ?_, ?_, ?_, ?_, ?_, ?_⟩
      · exact ⟨fun _ => Or.inl (by simp [isOwner]), fun _ => rfl⟩
      · rintro ⟨_, h2⟩; exact hno2 h2
      · intro h1; omega
      · intro hpc2; exact absurd (h8b hpc2) (by simp [isOwner])
      · intro _
        simpa [ownerLog] using hlog0
      · intro h2; exact absurd h2 hno2
      · rintro ⟨h1, _⟩; exact absurd (by simp [isOwner] : isOwner 1) h1
  · -- pc = 1: rmdir of the output root
    have hok : isOwner 1 := by simp [isOwner]
    have hno2 : ¬isOwner pc2 := fun h2 => hni ⟨hok, h2⟩
    have hlog := hl1 hok
    rw [show startStep s 1 =
      ({ s with log := s.log ++ [Action.rmOutputRoot] }, 2) from rfl]
    refine ⟨by omega, hb2, happ, hrl, hel, ?_, ?_, by omega, ?_, ?_, ?_, ?_⟩
    · exact ⟨fun _ => Or.inl (by simp [isOwner]),
        fun _ => hst.mpr (Or.inl hok)⟩
    · rintro ⟨_, h2⟩; exact hno2 h2
    · intro _; exact (by simp [isOwner] : isOwner 2)
    · intro _
      rw [hlog]
      simp [ownerLog]
    · intro h2; exact absurd h2 hno2
    · rintro ⟨h1, _⟩; exact absurd (by simp [isOwner] : isOwner 2) h1
  · -- pc = 2: mkdir of the output root
    have hok : isOwner 2 := by simp [isOwner]
    have hno2 : ¬isOwner pc2 := fun h2 => hni ⟨hok, h2⟩
    have hlog := hl1 hok
    rw [show startStep s 2 =
      ({ s with log := s.log ++ [Action.mkOutputRoot] }, 3) from rfl]
    refine ⟨by omega, hb2, happ, hrl, hel, ?_, ?_, by omega, ?_, ?_, ?_, ?_⟩
    · exact ⟨fun _ => Or.inl (by simp [isOwner]),
        fun _ => hst.mpr (Or.inl hok)⟩
    · rintro ⟨_, h2⟩; exact hno2 h2
    · intro _; exact (by simp [isOwner] : isOwner 3)
    · intro _
      rw [hlog]
      simp [ownerLog]
    · intro h2; exact absurd h2 hno2
    · rintro ⟨h1, _⟩; exact absurd (by simp [isOwner] : isOwner 3) h1
  · -- pc = 3: context creation
    have hok : isOwner 3 := by simp [isOwner]
    have hno2 : ¬isOwner pc2 := fun h2 => hni ⟨hok, h2⟩
    have hlog := hl1 hok
    rw [show startStep s 3 =
      ({ s with log := s.log ++ [Action.createContexts (esbuildHandles s)] }, 4) from rfl]
    refine ⟨by omega, hb2, happ, hrl, hel, ?_, ?_, by omega, ?_, ?_, ?_, ?_⟩
    · exact ⟨fun _ => Or.inl (by simp [isOwner]),
        fun _ => hst.mpr (Or.inl hok)⟩
    · rintro ⟨_, h2⟩; exact hno2 h2
    · intro _; exact (by simp [isOwner] : isOwner 4)
    · intro _
      rw [hlog]
      simp [ownerLog, esbuildHandles, happ]
    · intro h2; exact absurd h2 hno2
    · rintro ⟨h1, _⟩; exact absurd (by simp [isOwner] : isOwner 4) h1
  · -- pc = 4: initial full build
    have hok : isOwner 4 := by simp [isOwner]
    have hno2 : ¬isOwner pc2 := fun h2 => hni ⟨hok, h2⟩
    have hlog := hl1 hok
    rw [show startStep s 4 =
      ({ s with log := s.log ++ [Action.buildAll (s.app.realExtensions.map (·.handle))] }, 5) from rfl]
    refine ⟨by omega, hb2, happ, hrl, hel, ?_, ?_, by omega, ?_, ?_, ?_, ?_⟩
    · exact ⟨fun _ => Or.inl (by simp [isOwner]),
        fun _ => hst.mpr (Or.inl hok)⟩
    · rintro ⟨_, h2⟩; exact hno2 h2
    · intro _; exact (by simp [isOwner] : isOwner 5)
    · intro _
      rw [hlog]
      simp [ownerLog, happ]
    · intro h2; exact absurd h2 hno2
    · rintro ⟨h1, _⟩; exact absurd (by simp [isOwner] : isOwner 5) h1
  · -- pc = 5: file watcher subscription
    have hok : isOwner 5 := by simp [isOwner]
    have hno2 : ¬isOwner pc2 := fun h2 => hni ⟨hok, h2⟩
    have hlog := hl1 hok
    rw [show startStep s 5 =
      ({ s with log := s.log ++ [Action.subscribe] }, 6) from rfl]
    refine ⟨by omega, hb2, happ, hrl, hel, ?_, ?_, by omega, ?_, ?_, ?_, ?_⟩
    · exact ⟨fun _ => Or.inl (by simp [isOwner]),
        fun _ => hst.mpr (Or.inl hok)⟩
    · rintro ⟨_, h2⟩; exact hno2 h2
    · intro _; exact (by simp [isOwner] : isOwner 6)
    · intro _
      rw [hlog]
      simp [ownerLog]
    · intro h2; exact absurd h2 hno2
    · rintro ⟨h1, _⟩; exact absurd (by simp [isOwner] : isOwner 6) h1
  · -- pc = 6: set ready and emit
    have hok : isOwner 6 := by simp [isOwner]
    have hno2 : ¬isOwner pc2 := fun h2 => hni ⟨hok, h2⟩
    have hlog := hl1 hok
    rw [show startStep s 6 =
      (emitReadyEvent { s with ready := true }, 7) from rfl]
    refine ⟨by omega, hb2, ?_, ?_, ?_, ?_, ?_, by omega, ?_, ?_, ?_, ?_⟩
    · simpa [emitReadyEvent] using happ
    · simpa [emitReadyEvent] using hrl
    · simpa [emitReadyEvent] using hel
    · refine ⟨fun _ => Or.inl (by simp [isOwner]), fun _ => ?_⟩
      simpa [emitReadyEvent] using hst.mpr (Or.inl hok)
    · rintro ⟨_, h2⟩; exact hno2 h2
    · intro _; exact (by simp [isOwner] : isOwner 7)
    · intro _
      simp only [emitReadyEvent]
      rw [hlog, hrl]
      simp [ownerLog]
    · intro h2; exact absurd h2 hno2
    · rintro ⟨h1, _⟩; exact absurd (by simp [isOwner] : isOwner 7) h1
  · -- pc = 7: owner already finished
    rw [show startStep s 7 = (s, 7) from rfl]
    exact ⟨hb1, hb2, happ, hrl, hel, hst, hni, h8a, h8b, hl1, hl2, hl0⟩
  · -- pc = 8: invocation was skipped
    rw [show startStep s 8 = (s, 8) from rfl]
    exact ⟨hb1, hb2, happ, hrl, hel, hst, hni, h8a, h8b, hl1, hl2, hl0⟩

theorem runTwo_inv (s0 : WatcherState) (sched : List Bool) :
    ∀ s pc1 pc2, StartInv s0 s pc1 pc2 →
      StartInv s0 (runTwo (s, pc1, pc2) sched).1
        (runTwo (s, pc1, pc2) sched).2.1 (runTwo (s, pc1, pc2) sched).2.2 := by
  induction sched with
  | nil => intro s pc1 pc2 h; simpa [runTwo] using h
  | cons b rest ih =>
    intro s pc1 pc2 h
    cases b
    · simpa only [runTwo, if_neg (by simp : ¬false = true)] using
        ih _ _ _ (startInv_swap _ _ _ _
          (startStep_inv s0 s pc2 pc1 (startInv_swap _ _ _ _ h)))
    · simpa only [runTwo, if_pos rfl] using
        ih _ _ _ (startStep_inv s0 s pc1 pc2 h)

theorem startInv_final (s0 s : WatcherState) (pc1 pc2 : Nat)
    (h : StartInv s0 s pc1 pc2) (h1 : 7 ≤ pc1) (h2 : 7 ≤ pc2) :
    s.log = s0.log ++ ownerLog s0 7 ∧ s.started = true := by
  obtain ⟨hb1, hb2, happ, hrl, hel, hst, hni, h8a, h8b, hl1, hl2, hl0⟩ := h
  have hc1 : pc1 = 7 ∨ pc1 = 8 := by omega
  rcases hc1 with h7 | h8
  · subst h7
    have hok : isOwner 7 := by simp [isOwner]
    exact ⟨hl1 hok, hst.mpr (Or.inl hok)⟩
  · subst h8
    have hok2 : isOwner pc2 := h8a rfl
    have : pc2 = 7 := by
      obtain ⟨_, hle⟩ := hok2
      omega
    subst this
    exact ⟨hl2 hok2, hst.mpr (Or.inr hok2)⟩

/-- C2 (amended): across any interleaving of two concurrent `start()`
invocations that both run to completion — which subsumes two sequential
calls — the clean-output-directory / context-creation / initial-build /
subscribe sequence runs exactly once and `'ready'` is emitted exactly
once, invoking each listener registered at start time exactly once; and
any further `start()` call is a no-op.  (The original claim's stronger
"each listener is notified exactly once over the lifetime of the
session" is refuted by `ready_not_exactly_once_counterexample`: a
post-readiness `onStart` registration re-emits to all listeners.) -/
theorem start_clean_build_subscribe_once (s0 : WatcherState)
    (sched : List Bool) (h0 : s0.started = false)
    (h1 : 7 ≤ (runTwo (s0, 0, 0) sched).2.1)
    (h2 : 7 ≤ (runTwo (s0, 0, 0) sched).2.2) :
    (runTwo (s0, 0, 0) sched).1.log =
      s0.log ++ [Action.rmOutputRoot, Action.mkOutputRoot,
        Action.createContexts (esbuildHandles s0),
        Action.buildAll (s0.app.realExtensions.map (·.handle)),
        Action.subscribe] ++ Action.emitReady ::
        s0.readyListeners.map Action.invokeReadyListener ∧
      start (runTwo (s0, 0, 0) sched).1 = (runTwo (s0, 0, 0) sched).1 := by
  have hinv0 : StartInv s0 s0 0 0 := by
    refine ⟨by omega, by omega, rfl, rfl, rfl, ?_, ?_, ?_, ?_, ?_, ?_, ?_⟩
    · rw [h0]; simp [isOwner]
    · rintro ⟨ho, _⟩; exact absurd ho (by simp [isOwner])
    · intro h; exact absurd h (by decide)
    · intro h; exact absurd h (by decide)
    · intro h; exact absurd h (by simp [isOwner])
    · intro h; exact absurd h (by simp [isOwner])
    · intro _; rfl
  have hinv := runTwo_inv s0 sched s0 0 0 hinv0
  obtain ⟨hlog, hstarted⟩ := startInv_final s0 _ _ _ hinv h1 h2
  refine ⟨?_, ?_⟩
  · rw [hlog]
    simp [ownerLog]
  · unfold start
    rw [if_pos hstarted]

/-- C2 (amended) witness: the concrete interleaving above completes both
invocations and produces the startup sequence exactly once. -/
theorem start_clean_build_subscribe_once_witness :
    (runTwo (preStartWatcher, 0, 0) interleavedSched).1.log =
      preStartWatcher.log ++ [Action.rmOutputRoot, Action.mkOutputRoot,
        Action.createContexts (esbuildHandles preStartWatcher),
        Action.buildAll
          (preStartWatcher.app.realExtensions.map (·.handle)),
        Action.subscribe] ++ Action.emitReady ::
        preStartWatcher.readyListeners.map Action.invokeReadyListener ∧
      start (runTwo (preStartWatcher, 0, 0) interleavedSched).1 =
        (runTwo (preStartWatcher, 0, 0) interleavedSched).1 :=
  start_clean_build_subscribe_once preStartWatcher interleavedSched rfl
    (by decide) (by decide)

end AppWatcher
